import Mathlib

/-!
Shallow embedding of the RAG (retrieval-augmented generation) core of the
`advisor-ai` backend, and proofs about it.

Embedded source:
* `backend/app/services/ai_service.py` — `chunk_text`, `get_query_hash`,
  `generate_embedding` / `generate_embeddings_batch` (modelled as oracle
  calls that count against an embedding-call counter and may fail).
* `backend/app/services/rag_service.py` — `ingest_document`,
  `_process_document_for_embeddings`, `search_similar_chunks`,
  `retrieve_context_for_query`, `_get_cached_query`, `_cache_query_result`,
  `delete_document`, `clear_user_data`.
* `backend/app/models/rag.py` — the `Document`, `DocumentChunk` and
  `QueryCache` rows, modelled as records; the database is modelled as lists
  of rows in insertion order (every insert appends), so the unordered
  `SELECT` of the service returns rows in creation order.

Modelling conventions:
* Machine floats of the source are modelled as `ℚ`; `datetime.utcnow()` is a
  logical clock `Nat` passed to each operation; UUIDs are `Nat` drawn from a
  `nextId` counter.
* The external services (OpenAI embedding endpoint, SHA-256 from `hashlib`,
  the pgvector `cosine_distance` operator, the LLM summarizer) are not code
  of this repository; they enter as an `Env` of oracle functions.  Embedding
  calls may fail (`Except`), mirroring `AIError` raised by the provider glue;
  each `embeddings.create` round-trip bumps `embedCalls` by one.
* Python `dict` metadata bags are modelled as association lists; the only
  operation the embedded code performs on them is equality.
* Exceptions are modelled by `Except PyErr`; `try/except` blocks become
  `match` on the inner result, and `rollback` returns to the last committed
  state (each commit point of the source materialises a new state value).
-/

namespace AdvisorAI

/-! ### Chunker — `ai_service.chunk_text` -/

/-- Characters treated as sentence terminators by `chunk_text` (`'.!?'`). -/
def isSentenceEnd (c : Char) : Bool := c = '.' || c = '!' || c = '?'

/-- Python `str.strip()`: remove leading and trailing whitespace. -/
def pyStrip (s : List Char) : List Char :=
  ((s.dropWhile Char.isWhitespace).reverse.dropWhile Char.isWhitespace).reverse

/-- Python slice `text[a:b]` for `0 ≤ a ≤ b` (the only shape the chunker uses). -/
def pySlice (s : List Char) (a b : Nat) : List Char := (s.drop a).take (b - a)

/-- The backward scan
`for i in range(end, max(start + chunk_size - 100, start), -1): if text[i] in '.!?': end = i + 1; break`.
`List.range' (lo+1) (e-lo) |>.reverse` is exactly `[e, e-1, …, lo+1]`, and
`find?` takes the first hit, i.e. the largest such `i`.  (Nat subtraction in
`start + csize - 100` agrees with Python's `max(start + chunk_size - 100, start)`
for `start ≥ 0` because the truncation at `0` is absorbed by the `max`.) -/
def sentenceCut (text : List Char) (start e csize : Nat) : Nat :=
  let lo := max (start + csize - 100) start
  match ((List.range' (lo + 1) (e - lo)).reverse).find?
      (fun i => isSentenceEnd (text.getD i ' ')) with
  | some i => i + 1
  | none => e

/-- The `while start < len(text)` loop of `chunk_text`, with explicit fuel
(the source loop advances `start` by at least `chunk_size - overlap - 98 > 0`
per iteration at the default parameters; the fuel passed in by `chunk_text`
is more than enough there, and running out of fuel only truncates the output,
which no claim below depends on).  `e - overlap` uses Nat subtraction; in
Python `start = end - overlap` stays nonnegative on every execution with
`overlap < chunk_size - 98`, which covers the source's default call sites. -/
def chunkLoop (text : List Char) (csize overlap : Nat) : Nat → Nat → List (List Char)
  | 0, _ => []
  | fuel + 1, start =>
    if start < text.length then
      let e0 := start + csize
      let e := if e0 < text.length then sentenceCut text start e0 csize else e0
      let chunk := pyStrip (pySlice text start e)
      let rest := chunkLoop text csize overlap fuel (e - overlap)
      if chunk.isEmpty then rest else chunk :: rest
    else []

/-- `ai_service.chunk_text(text, chunk_size=1000, overlap=200)`:
`if len(text) <= chunk_size: return [text]` (note: unstripped, unfiltered),
otherwise the sliding-window loop. -/
def chunk_text (text : List Char) (csize overlap : Nat) : List (List Char) :=
  if text.length ≤ csize then [text]
  else chunkLoop text csize overlap (text.length + 1) 0

/-- String-level wrapper of `chunk_text` as used by the ingestion pipeline. -/
def chunkTextS (s : String) : List String :=
  (chunk_text s.toList 1000 200).map fun l => String.mk l

/-! ### Data model — `app/models/rag.py` rows, as records -/

/-- A `documents` row.  `created_at` / `updated_at` are logical-clock values;
`id` is a surrogate key drawn from the state's `nextId` counter. -/
structure Document where
  id : Nat
  user_id : String
  source : String
  source_id : String
  document_type : String
  title : String
  content : String
  metadata : List (String × String)
  is_processed : Bool
  processing_error : Option String
  created_at : Nat
  updated_at : Nat
deriving Repr, DecidableEq

/-- A `document_chunks` row.  The source stores a metadata dict
`{"source": …, "document_type": …, "title": …}` on each chunk; it is modelled
by the three fields it always contains. -/
structure DocumentChunk where
  id : Nat
  document_id : Nat
  chunk_index : Nat
  content : String
  content_length : Nat
  embedding : List ℚ
  msource : String
  mdocument_type : String
  mtitle : String
deriving Repr, DecidableEq

/-- One context item of `retrieve_context_for_query`'s result list. -/
structure ContextItem where
  content : String
  source : String
  document_type : String
  title : String
  relevance_score : ℤ
  chunk_id : Nat
  document_id : Nat
deriving Repr, DecidableEq

/-- A `query_cache` row.  `hit_count` defaults to `0` on insert
(`Column(Integer, default=0)`). -/
structure QueryCache where
  id : Nat
  user_id : String
  query_hash : String
  query_text : String
  query_embedding : List ℚ
  retrieved_chunks : List ContextItem
  context_summary : String
  hit_count : Nat
  last_accessed_at : Nat
  created_at : Nat
  expires_at : Option Nat
deriving Repr, DecidableEq

/-- One result record of `search_similar_chunks`. -/
structure SearchResult where
  chunk_id : Nat
  document_id : Nat
  content : String
  similarity_score : ℚ
  msource : String
  mdocument_type : String
  mtitle : String
deriving Repr, DecidableEq

/-- The persistent store plus the bookkeeping this verification needs:
`embedCalls` counts round-trips to the embedding provider
(`client.embeddings.create`), one per `generate_embedding` /
`generate_embeddings_batch` call. -/
structure RAGState where
  docs : List Document
  chunks : List DocumentChunk
  cache : List QueryCache
  nextId : Nat
  embedCalls : Nat
deriving Repr, DecidableEq

/-- Python exception classes that escape the embedded functions:
`AIError` and `DatabaseError` from `app/core/exceptions.py`. -/
inductive PyErr where
  | aiErr (msg : String)
  | dbErr (msg : String)
deriving Repr, DecidableEq

/-- External collaborators, not code of this repository: the SHA-256 hex
digest from `hashlib` (`hash`), the OpenAI embedding endpoint (`embed`,
`embedBatch`, which may fail — `AIError`), the LLM summarizer used by
`_cache_query_result` (`summarize_text` swallows its own errors, so it is a
total function), the pgvector `cosine_distance` operator (`dist`), and a
flag standing for a database failure in `delete_document`'s `try` block. -/
structure Env where
  hash : String → String
  embed : String → Except String (List ℚ)
  embedBatch : List String → Except String (List (List ℚ))
  summarize : String → String
  dist : List ℚ → List ℚ → ℚ
  dbFail : Bool

/-- `ai_service.get_query_hash(query)`: the SHA-256 hex digest of the raw
query string, supplied by the environment (`hashlib` is external code). -/
def get_query_hash (env : Env) (query : String) : String := env.hash query

/-- Python `int()` applied to a rational: truncation toward zero
(`q.num.tdiv q.den`).  For the nonnegative similarity scores the service
produces this is the floor. -/
def pyInt (q : ℚ) : ℤ := q.num.tdiv q.den

/-- Python truthiness of an optional list filter (`if sources:`): `None` and
the empty list both disable the filter. -/
def pyFilterIn (o : Option (List String)) (v : String) : Bool :=
  match o with
  | none => true
  | some l => l.isEmpty || l.contains v

/-! ### Similarity search — `rag_service.search_similar_chunks` -/

/-- The join `select(DocumentChunk).join(Document)`: the parent row of a
chunk, by foreign key. -/
def parentDoc (st : RAGState) (c : DocumentChunk) : Option Document :=
  st.docs.find? fun d => d.id == c.document_id

/-- The `WHERE` clause of `search_similar_chunks`: the chunk's parent
document belongs to the user and passes the optional `source` /
`document_type` filters (applied on the `Document` columns). -/
def chunkInScope (st : RAGState) (user_id : String)
    (sources document_types : Option (List String)) (c : DocumentChunk) : Bool :=
  match parentDoc st c with
  | some d =>
      d.user_id == user_id && pyFilterIn sources d.source &&
        pyFilterIn document_types d.document_type
  | none => false

/-- Stable insertion of a chunk-distance pair into a list already sorted by
ascending distance: the new pair goes after every earlier pair whose distance
is `≤` its own, so ties keep storage order, as the database's `ORDER BY`
leaves rows with equal keys in scan order. -/
def insertByDistance (x : DocumentChunk × ℚ) :
    List (DocumentChunk × ℚ) → List (DocumentChunk × ℚ)
  | [] => [x]
  | y :: ys => if y.2 ≤ x.2 then y :: insertByDistance x ys else x :: y :: ys

/-- The `ORDER BY distance` of the similarity query: stable ascending
insertion sort. -/
def orderByDistance : List (DocumentChunk × ℚ) → List (DocumentChunk × ℚ)
  | [] => []
  | x :: xs => insertByDistance x (orderByDistance xs)

/-- `rag_service.search_similar_chunks`: scope to the user's chunks, order by
ascending cosine distance (stable sort — ties keep storage order), take
`limit`, convert distance to similarity (`1 - distance`) and drop candidates
below the threshold (`if similarity_score >= self.similarity_threshold`). -/
def search_similar_chunks (env : Env) (threshold : ℚ) (st : RAGState)
    (user_id : String) (query_embedding : List ℚ) (limit : Nat)
    (sources document_types : Option (List String)) : List SearchResult :=
  let cands := st.chunks.filter (chunkInScope st user_id sources document_types)
  let withD := cands.map fun c => (c, env.dist c.embedding query_embedding)
  let sorted := orderByDistance withD
  (sorted.take limit).filterMap fun cd =>
    let s := 1 - cd.2
    if threshold ≤ s then
      some { chunk_id := cd.1.id, document_id := cd.1.document_id,
             content := cd.1.content, similarity_score := s,
             msource := cd.1.msource, mdocument_type := cd.1.mdocument_type,
             mtitle := cd.1.mtitle }
    else none

/-! ### Context assembly — the ranked-candidate loop of
`retrieve_context_for_query` -/

/-- One emitted context item: note `relevance_score` is
`int(chunk["similarity_score"] * 100)` — Python `int()` truncation. -/
def mkContextItem (r : SearchResult) : ContextItem :=
  { content := r.content, source := r.msource,
    document_type := r.mdocument_type, title := r.mtitle,
    relevance_score := pyInt (r.similarity_score * 100),
    chunk_id := r.chunk_id, document_id := r.document_id }

/-- The `for chunk in similar_chunks` loop of `retrieve_context_for_query`:
greedy packing that `break`s at the first candidate whose content would push
`total_length` past `max_context_length`. -/
def assembleContext (maxLen : Nat) : List SearchResult → Nat → List ContextItem
  | [], _ => []
  | r :: rest, total =>
    if maxLen < total + r.content.length then []
    else mkContextItem r :: assembleContext maxLen rest (total + r.content.length)

/-! ### Query cache — `_get_cached_query` / `_cache_query_result` -/

/-- The cache lookup predicate: same user, same hash, and not expired
(`expires_at IS NULL OR expires_at > utcnow()`). -/
def cacheMatch (uid qh : String) (now : Nat) (r : QueryCache) : Bool :=
  r.user_id == uid && r.query_hash == qh &&
    (match r.expires_at with
     | none => true
     | some e => now < e)

/-- `rag_service._get_cached_query`: `scalar_one_or_none` yields the row only
when exactly one matches (two or more raise `MultipleResultsFound`, which the
`except` swallows into a miss); on a hit the row's `hit_count` is incremented
and `last_accessed_at` refreshed, then committed. -/
def get_cached_query (st : RAGState) (now : Nat) (uid qh : String) :
    RAGState × Option QueryCache :=
  match st.cache.filter (cacheMatch uid qh now) with
  | [r] =>
    let r' := { r with hit_count := r.hit_count + 1, last_accessed_at := now }
    ({ st with cache := st.cache.map fun x => if x.id == r.id then r' else x }, some r')
  | _ => (st, none)

/-- The cache TTL: `timedelta(hours=24)`, on a clock counted in seconds. -/
def cacheTTL : Nat := 86400

/-- `rag_service._cache_query_result`: summarise the joined content and
insert a fresh row with `hit_count = 0` and `expires_at = now + 24h`. -/
def cache_query_result (env : Env) (st : RAGState) (now : Nat)
    (uid qh qtext : String) (qemb : List ℚ) (items : List ContextItem) : RAGState :=
  let summary := env.summarize (String.intercalate "\n" (items.map ContextItem.content))
  let row : QueryCache :=
    { id := st.nextId, user_id := uid, query_hash := qh, query_text := qtext,
      query_embedding := qemb, retrieved_chunks := items,
      context_summary := summary, hit_count := 0, last_accessed_at := now,
      created_at := now, expires_at := some (now + cacheTTL) }
  { st with cache := st.cache ++ [row], nextId := st.nextId + 1 }

/-- `rag_service.retrieve_context_for_query`: cache lookup by
`get_query_hash`; on a hit return the stored chunks; on a miss embed the
query (one provider call), search with `limit * 2`, pack greedily under
`max_context_length`, cache, and return.  An embedding failure surfaces as
`AIError("Failed to retrieve context for query")` via the blanket `except`. -/
def retrieve_context_for_query (env : Env) (threshold : ℚ) (maxLen : Nat)
    (st : RAGState) (now : Nat) (user_id query : String) (limit : Nat)
    (sources document_types : Option (List String)) :
    RAGState × Except PyErr (List ContextItem) :=
  let qh := get_query_hash env query
  match get_cached_query st now user_id qh with
  | (st1, some row) => (st1, .ok row.retrieved_chunks)
  | (st1, none) =>
    match env.embed query with
    | .error _ =>
      ({ st1 with embedCalls := st1.embedCalls + 1 },
       .error (.aiErr "Failed to retrieve context for query"))
    | .ok qemb =>
      let st2 := { st1 with embedCalls := st1.embedCalls + 1 }
      let sim := search_similar_chunks env threshold st2 user_id qemb (limit * 2)
        sources document_types
      let items := assembleContext maxLen sim 0
      let st3 := cache_query_result env st2 now user_id qh query qemb items
      (st3, .ok items)

/-! ### Ingestion — `rag_service.ingest_document` and
`_process_document_for_embeddings` -/

/-- The natural-key predicate of the duplicate lookup in `ingest_document`:
`Document.user_id == user_id AND source == source AND source_id == source_id`. -/
def keyMatch (uid src sid : String) (d : Document) : Bool :=
  d.user_id == uid && d.source == src && d.source_id == sid

/-- `rag_service._process_document_for_embeddings`: chunk the content, embed
the chunks in one batch call, insert a `DocumentChunk` per `(chunk, embedding)`
pair with the denormalized metadata, mark the document processed, commit.  On
an embedding failure: roll back the staged chunk inserts, mark the document
`is_processed = false` with `processing_error = str(e)` (the message of the
`AIError("Failed to generate batch embeddings")` raised by
`generate_embeddings_batch`), commit that, and re-raise as
`AIError("Failed to process document for embeddings")`.  Either way exactly
one provider round-trip was made. -/
def process_document_for_embeddings (env : Env) (st : RAGState)
    (doc : Document) : RAGState × Except PyErr Document :=
  let pieces := chunkTextS doc.content
  match env.embedBatch pieces with
  | .error _ =>
    let doc' := { doc with
      is_processed := false,
      processing_error := some "Failed to generate batch embeddings" }
    ({ st with docs := st.docs.map fun d => if d.id == doc.id then doc' else d,
               embedCalls := st.embedCalls + 1 },
     .error (.aiErr "Failed to process document for embeddings"))
  | .ok embs =>
    let pairs := pieces.zip embs
    let newChunks := pairs.enum.map fun ie =>
      { id := st.nextId + ie.1, document_id := doc.id, chunk_index := ie.1,
        content := ie.2.1, content_length := ie.2.1.length,
        embedding := ie.2.2, msource := doc.source,
        mdocument_type := doc.document_type, mtitle := doc.title : DocumentChunk }
    let doc' := { doc with is_processed := true }
    ({ st with chunks := st.chunks ++ newChunks,
               docs := st.docs.map fun d => if d.id == doc.id then doc' else d,
               nextId := st.nextId + pairs.length,
               embedCalls := st.embedCalls + 1 },
     .ok doc')

/-- The embedding step as seen from inside `ingest_document`'s `try` block:
run `_process_document_for_embeddings`; its `AIError` — like every other
exception — is caught by the blanket `except` of `ingest_document`, which
rolls back (a no-op here, since `_process…` has already committed the failure
markers) and re-raises `DatabaseError("Failed to ingest document")`. -/
def runPipeline (env : Env) (st : RAGState) (doc : Document) :
    RAGState × Except PyErr Document :=
  match process_document_for_embeddings env st doc with
  | (st2, .ok d2) => (st2, .ok d2)
  | (st2, .error _) => (st2, .error (.dbErr "Failed to ingest document"))

/-- The update branch of `ingest_document` once the (single) existing row is
in hand: diff `(title, content, metadata)` field-by-field; always overwrite
the fields and advance `updated_at`; only when something changed reset
`is_processed` and delete the document's chunks; commit; then run the
embedding pipeline iff the document is unprocessed. -/
def ingestExisting (env : Env) (st : RAGState) (now : Nat)
    (title content : String) (metadata : Option (List (String × String)))
    (d0 : Document) : RAGState × Except PyErr Document :=
  let changed := d0.title != title || d0.content != content ||
    d0.metadata != metadata.getD []
  let d1 := { d0 with
    title := title,
    content := content,
    metadata := metadata.getD [],
    updated_at := now,
    is_processed := if changed then false else d0.is_processed }
  let st1 := { st with
    docs := st.docs.map fun d => if d.id == d0.id then d1 else d,
    chunks := if changed then st.chunks.filter fun c => c.document_id != d0.id
              else st.chunks }
  if d1.is_processed then (st1, .ok d1)
  else runPipeline env st1 d1

/-- The create branch of `ingest_document`: insert a fresh row
(`is_processed` defaults to false), commit, then run the embedding pipeline. -/
def ingestNew (env : Env) (st : RAGState) (now : Nat)
    (user_id source source_id document_type title content : String)
    (metadata : Option (List (String × String))) :
    RAGState × Except PyErr Document :=
  let dNew : Document :=
    { id := st.nextId, user_id := user_id, source := source,
      source_id := source_id, document_type := document_type, title := title,
      content := content, metadata := metadata.getD [], is_processed := false,
      processing_error := none, created_at := now, updated_at := now }
  let st1 := { st with docs := st.docs ++ [dNew], nextId := st.nextId + 1 }
  runPipeline env st1 dNew

/-- `rag_service.ingest_document`: look up all rows with the natural key
`(user_id, source, source_id)`; keep the first returned row (the database is
modelled in insertion order, so this is the earliest-created) and delete any
further duplicates, committing the cleanup; then update the kept row or
create a fresh one. -/
def ingest_document (env : Env) (st : RAGState) (now : Nat)
    (user_id source source_id document_type title content : String)
    (metadata : Option (List (String × String))) :
    RAGState × Except PyErr Document :=
  match st.docs.filter (keyMatch user_id source source_id) with
  | [] => ingestNew env st now user_id source source_id document_type title content metadata
  | d0 :: rest =>
    let st0 :=
      if rest.isEmpty then st
      else { st with docs := st.docs.filter fun d =>
               !(keyMatch user_id source source_id d) || d.id == d0.id }
    ingestExisting env st0 now title content metadata d0

/-! ### Deletion — `delete_document` and `clear_user_data` -/

/-- `rag_service.delete_document`: a single Core `DELETE … WHERE id = … AND
user_id = …`.  The comment in the source says "chunks will be deleted by
cascade", but `cascade="all, delete-orphan"` is an ORM-relationship setting
that a Core bulk `DELETE` bypasses, and the schema's
`ForeignKey("documents.id")` (`models/rag.py`) carries no
`ON DELETE CASCADE`; so on PostgreSQL the statement raises a foreign-key
violation whenever the document still has chunks, the `except` rolls back,
and `False` is returned with the store unchanged.  Otherwise `rowcount > 0`
commits and returns `True`, and `rowcount = 0` returns `False`.  `env.dbFail`
stands for any other database failure inside the `try` block. -/
def delete_document (env : Env) (st : RAGState) (user_id : String)
    (document_id : Nat) : RAGState × Bool :=
  if env.dbFail then (st, false)
  else
    let hit := st.docs.any fun d => d.id == document_id && d.user_id == user_id
    let fkViolation :=
      hit && st.chunks.any fun c => c.document_id == document_id
    if fkViolation then (st, false)
    else if hit then
      ({ st with
         docs := st.docs.filter fun d =>
           !(d.id == document_id && d.user_id == user_id) }, true)
    else (st, false)

/-- Modelled Python/SQLAlchemy fact: the second statement of
`clear_user_data` is `delete(DocumentChunk).join(Document).where(…)`, but the
SQLAlchemy `Delete` construct has no `join` method (joins in a DELETE are
expressed through correlated `WHERE` clauses), so evaluating this expression
raises `AttributeError` before anything is executed.  The function therefore
never produces a chunk-deleting statement; `none` models the raised error. -/
def chunkDeleteViaJoin (st : RAGState) (user_id : String) : Option RAGState :=
  none

/-- `rag_service.clear_user_data`: stages `DELETE FROM query_cache WHERE
user_id = …`, then evaluates the invalid chunk-delete statement, which raises
`AttributeError`; the `except` rolls the staged delete back and returns
`False`.  The document delete and the `commit` are unreachable. -/
def clear_user_data (st : RAGState) (user_id : String) : RAGState × Bool :=
  let staged := { st with cache := st.cache.filter fun r => r.user_id != user_id }
  match chunkDeleteViaJoin staged user_id with
  | some st2 =>
    ({ st2 with docs := st2.docs.filter fun d => d.user_id != user_id }, true)
  | none => (st, false)

/-! ### Derived measures used by the statements -/

/-- Total character length of an assembled context (`total_length` of the
packing loop). -/
def sumLenC (items : List ContextItem) : Nat :=
  (items.map fun i => i.content.length).sum

/-- Total character length of a ranked candidate list. -/
def sumLenR (rs : List SearchResult) : Nat :=
  (rs.map fun r => r.content.length).sum

/-- Well-formedness of a store: surrogate ids of documents and cache rows are
unique and below the `nextId` counter (chunk ids are never used as lookup
keys by the embedded code, so nothing is needed for them). -/
structure WFState (st : RAGState) : Prop where
  docsBound : ∀ d ∈ st.docs, d.id < st.nextId
  docsNodup : (st.docs.map Document.id).Nodup
  cacheBound : ∀ r ∈ st.cache, r.id < st.nextId
  cacheNodup : (st.cache.map QueryCache.id).Nodup

/-! ### Concrete fixtures for witnesses and counterexamples -/

/-- A benign environment: every embedding succeeds with the vector `[1]`, and
every chunk sits at cosine distance `1/8` from every query (similarity `7/8`). -/
def envW : Env :=
  { hash := fun _ => "h", embed := fun _ => .ok [1],
    embedBatch := fun l => .ok (l.map fun _ => [1]),
    summarize := fun _ => "s", dist := fun _ _ => 1/8, dbFail := false }

/-- A processed document of user `"u"`. -/
def docW : Document :=
  { id := 0, user_id := "u", source := "gmail", source_id := "m1",
    document_type := "email", title := "t", content := "hello",
    metadata := [], is_processed := true, processing_error := none,
    created_at := 0, updated_at := 0 }

/-- The single chunk of `docW`. -/
def chunkW : DocumentChunk :=
  { id := 1, document_id := 0, chunk_index := 0, content := "hello",
    content_length := 5, embedding := [1], msource := "gmail",
    mdocument_type := "email", mtitle := "t" }

/-- A store holding `docW` and `chunkW` and an empty query cache. -/
def stW : RAGState :=
  { docs := [docW], chunks := [chunkW], cache := [], nextId := 2, embedCalls := 0 }

/-- The search result `search_similar_chunks` produces for `chunkW` under
`envW`: similarity `1 - 1/8` (that is, `7/8`). -/
def rW : SearchResult :=
  { chunk_id := 1, document_id := 0, content := "hello",
    similarity_score := 1 - 1/8, msource := "gmail",
    mdocument_type := "email", mtitle := "t" }

/-- A cache row of user `"u1"`, for the `clear_user_data` evaluation. -/
def cacheRowW : QueryCache :=
  { id := 3, user_id := "u1", query_hash := "qh", query_text := "q",
    query_embedding := [1], retrieved_chunks := [], context_summary := "s",
    hit_count := 0, last_accessed_at := 0, created_at := 0,
    expires_at := some 100 }

/-- A store of user `"u1"` holding one document, one chunk and one cache row. -/
def stU1 : RAGState :=
  { docs := [{ docW with user_id := "u1" }],
    chunks := [chunkW], cache := [cacheRowW], nextId := 4, embedCalls := 0 }

/-- An environment whose embedding provider always fails. -/
def envFail : Env := { envW with embedBatch := fun _ => .error "boom" }

/-- The empty store. -/
def stEmpty : RAGState :=
  { docs := [], chunks := [], cache := [], nextId := 0, embedCalls := 0 }

/-- A later-created duplicate of `docW` under the same natural key
(a simulated duplicate-insert race). -/
def docDupB : Document := { docW with id := 2, created_at := 3, updated_at := 3 }

/-- A store holding two documents with the same `(user_id, source,
source_id)`, in creation order. -/
def stDup : RAGState :=
  { docs := [docW, docDupB], chunks := [], cache := [], nextId := 3,
    embedCalls := 0 }

/-- The store after a first `retrieve_context_for_query` miss on the empty
store: one cache row for `(user "u", hash of "hi")` holding no chunks. -/
def stC7 : RAGState :=
  cache_query_result envW { stEmpty with embedCalls := 1 } 0 "u"
    (envW.hash "hi") "hi" [1] []

/-! ### Helper lemmas about `pyStrip` and `chunkLoop` -/

theorem dropWhile_head_false {α : Type} {p : α → Bool} :
    ∀ {l : List α} {a : α} {as : List α}, l.dropWhile p = a :: as → p a = false := by
  intro l
  induction l with
  | nil => intro a as h; simp [List.dropWhile] at h
  | cons x xs ih =>
    intro a as h
    rw [List.dropWhile_cons] at h
    by_cases hx : p x = true
    · rw [if_pos hx] at h; exact ih h
    · rw [if_neg hx] at h
      obtain ⟨rfl, -⟩ := List.cons.injEq .. ▸ h
      simpa using hx

theorem pyStrip_idem (s : List Char) : pyStrip (pyStrip s) = pyStrip s := by
  unfold pyStrip
  set w := Char.isWhitespace with hw
  set u := (s.dropWhile w).reverse.dropWhile w with hu
  have hpre : u.reverse <+: s.dropWhile w := by
    have hs : u <:+ (s.dropWhile w).reverse := List.dropWhile_suffix w
    have h2 : u.reverse <+: ((s.dropWhile w).reverse).reverse := List.reverse_prefix.mpr hs
    simpa using h2
  have h1 : u.reverse.dropWhile w = u.reverse := by
    cases hur : u.reverse with
    | nil => simp
    | cons a as =>
      obtain ⟨r, hr⟩ := hpre
      rw [hur] at hr
      have ha : w a = false := dropWhile_head_false (l := s) (by rw [hr.symm]; rfl)
      rw [List.dropWhile_cons, if_neg (by simp [ha])]
  rw [h1, List.reverse_reverse, hu, List.dropWhile_idempotent]

theorem chunkLoop_mem {text : List Char} {csize overlap : Nat} :
    ∀ fuel start c, c ∈ chunkLoop text csize overlap fuel start →
      c ≠ [] ∧ ∃ s, c = pyStrip s := by
  intro fuel
  induction fuel with
  | zero => intro start c h; simp [chunkLoop] at h
  | succ n ih =>
    intro start c h
    rw [chunkLoop] at h
    by_cases hs : start < text.length
    · rw [if_pos hs] at h
      dsimp only at h
      split at h
      all_goals
        split at h
        · exact ih _ c h
        · rename_i hemp
          rcases List.mem_cons.mp h with rfl | hmem
          · refine ⟨?_, _, rfl⟩
            intro hnil
            rw [hnil] at hemp
            simp at hemp
          · exact ih _ c hmem
    · rw [if_neg hs] at h
      simp at h

/-- Claim C8, counterexample: for whitespace-only input (here a single space,
which has length `≤ chunk_size`), `chunk_text` returns the text verbatim as a
single chunk, and that chunk is empty after trimming — the early return
`if len(text) <= chunk_size: return [text]` bypasses the drop-empty filter. -/
theorem chunk_text_empty_chunk_counterexample :
    chunk_text [' '] 1000 200 = [[' ']] ∧ pyStrip [' '] = [] := by
  constructor
  · rfl
  · rfl

/-- Claim C8, amended: for every text whose length strictly exceeds
`chunk_size` (so that the sliding-window loop runs), every chunk returned by
`chunk_text` is non-empty after trimming whitespace; when the text length is
at most `chunk_size` the whole text is returned verbatim as the single chunk,
even when it is empty or whitespace-only. -/
theorem chunk_text_chunks_nonempty (text : List Char) (csize overlap : Nat)
    (h : csize < text.length) :
    ∀ c ∈ chunk_text text csize overlap, pyStrip c ≠ [] := by
  intro c hc
  rw [chunk_text, if_neg (not_le.mpr h)] at hc
  obtain ⟨hne, s, rfl⟩ := chunkLoop_mem _ _ _ hc
  rw [pyStrip_idem]
  exact hne

/-- Witness for `chunk_text_chunks_nonempty` at the concrete input
`"abcd."` with `chunk_size = 2`, `overlap = 1`, whose first chunk is `"ab"`. -/
theorem chunk_text_chunks_nonempty_witness : pyStrip ['a', 'b'] ≠ [] :=
  chunk_text_chunks_nonempty "abcd.".toList 2 1 (by decide) ['a', 'b'] (by decide)

/-! ### Evaluation helpers shared by several witnesses -/

/-- Python `int()` agrees with the floor on nonnegative rationals. -/
theorem pyInt_eq_floor (q : ℚ) (h : 0 ≤ q) : pyInt q = ⌊q⌋ := by
  rw [pyInt, Rat.floor_def]
  exact Int.tdiv_eq_ediv (Rat.num_nonneg.mpr h) (by positivity)

/-- Evaluation of the similarity search under `envW` on a store whose rows
are `docW` and `chunkW`: the single candidate has distance `1/8`, passes the
`7/10` threshold, and yields exactly `rW`. -/
theorem searchW_eval (st : RAGState) (hd : st.docs = [docW])
    (hc : st.chunks = [chunkW]) :
    search_similar_chunks envW (7/10) st "u" [1] 10 none none = [rW] := by
  unfold search_similar_chunks
  dsimp only
  rw [hc]
  have hscope : List.filter (chunkInScope st "u" none none) [chunkW] = [chunkW] := by
    simp [chunkInScope, parentDoc, hd, docW, chunkW, pyFilterIn]
  rw [hscope]
  have hcond : ((7 : ℚ)/10 ≤ 1 - 1/8) := by norm_num
  simp only [List.map_cons, List.map_nil, orderByDistance, insertByDistance,
    List.take, List.filterMap_cons, List.filterMap_nil]
  dsimp only [envW]
  rw [if_pos hcond]
  rfl

/-! ### Helper lemmas for the ingestion state analysis -/

/-- Updating by an id that no element carries is a no-op. -/
theorem map_upd_not_mem (l : List Document) (i : Nat) (x : Document)
    (h : ∀ d ∈ l, d.id ≠ i) :
    (l.map fun d => if d.id == i then x else d) = l := by
  induction l with
  | nil => rfl
  | cons a as ih =>
    simp only [List.map_cons]
    rw [if_neg (by simpa using h a (List.mem_cons_self a as)),
      ih fun d hd => h d (List.mem_cons_of_mem a hd)]

/-- An id-targeted update whose replacement keeps the id leaves the id column
unchanged. -/
theorem map_upd_map_id (l : List Document) (i : Nat) (x : Document)
    (hx : x.id = i) :
    ((l.map fun d => if d.id == i then x else d).map Document.id) =
      l.map Document.id := by
  induction l with
  | nil => rfl
  | cons a as ih =>
    simp only [List.map_cons, ih]
    by_cases ha : a.id = i
    · rw [if_pos (by simpa using ha)]
      simp [hx, ha]
    · rw [if_neg (by simpa using ha)]

/-- Filtering commutes with an id-targeted update when ids are unique and the
replacement keeps the filter verdict of the targeted row. -/
theorem filter_map_upd (l : List Document) (p : Document → Bool) (i : Nat)
    (d0 x : Document) (hnd : (l.map Document.id).Nodup) (hmem : d0 ∈ l)
    (hi : d0.id = i) (hp : p x = p d0) :
    ((l.map fun d => if d.id == i then x else d).filter p) =
      (l.filter p).map fun d => if d.id == i then x else d := by
  rw [List.filter_map]
  have hcong : (l.filter ((fun d => p d) ∘ fun d => if d.id == i then x else d))
      = l.filter p := by
    refine List.filter_congr fun a ha => ?_
    by_cases hai : a.id = i
    · have haeq : a = d0 :=
        List.inj_on_of_nodup_map hnd ha hmem (by rw [hai, hi])
      subst haeq
      simp only [Function.comp_apply]
      rw [if_pos (show (a.id == i) = true by simpa using hai)]
      exact hp
    · simp only [Function.comp_apply]
      rw [if_neg (show ¬(a.id == i) = true by simpa using hai)]
  rw [hcong]

/-- After the duplicate-cleanup filter of `ingest_document`, the only
key-matching row left is the first one the lookup returned. -/
theorem filter_key_dedup {l : List Document} {key : Document → Bool}
    {d0 : Document} {rest : List Document}
    (hnd : (l.map Document.id).Nodup) (hf : l.filter key = d0 :: rest) :
    ((l.filter fun d => !(key d) || d.id == d0.id).filter key) = [d0] := by
  have h1 : ((l.filter fun d => !(key d) || d.id == d0.id).filter key)
      = (l.filter key).filter fun d => d.id == d0.id := by
    rw [List.filter_filter, List.filter_filter]
    exact List.filter_congr fun a ha => by cases h : key a <;> simp [h]
  rw [h1, hf, List.filter_cons,
    if_pos (show (d0.id == d0.id) = true by simp)]
  have hrest : rest.filter (fun d => d.id == d0.id) = [] := by
    rw [List.filter_eq_nil_iff]
    intro a ha hbeq
    have hnd2 : ((l.filter key).map Document.id).Nodup :=
      ((List.filter_sublist l).map Document.id).nodup hnd
    rw [hf] at hnd2
    simp only [List.map_cons, List.nodup_cons] at hnd2
    exact hnd2.1 (by
      rw [← beq_iff_eq.mp hbeq]
      exact List.mem_map_of_mem Document.id ha)
  rw [hrest]

/-- A singleton filter result forces membership and the predicate. -/
theorem filter_singleton_mem {α : Type} {l : List α} {key : α → Bool}
    {d0 : α} (hf : l.filter key = [d0]) :
    d0 ∈ l ∧ key d0 = true := by
  have : d0 ∈ l.filter key := by rw [hf]; exact List.mem_singleton_self d0
  exact ⟨List.mem_of_mem_filter this, (List.mem_filter.mp this).2⟩

/-- Updating the unique key-matching row with a row of the same id and key
leaves it as the unique key-matching row. -/
theorem filter_upd_singleton (l : List Document) (key : Document → Bool)
    (d0 d1 : Document) (hnd : (l.map Document.id).Nodup)
    (hkey : l.filter key = [d0]) (hkeep : key d1 = key d0) :
    ((l.map fun d => if d.id == d0.id then d1 else d).filter key) = [d1] := by
  rw [filter_map_upd l key d0.id d0 d1 hnd (filter_singleton_mem hkey).1 rfl hkeep,
    hkey]
  simp

/-- Equation for `_process_document_for_embeddings` when the batch embedding
call succeeds. -/
theorem process_eq_ok (env : Env) (st : RAGState) (doc : Document)
    (embs : List (List ℚ))
    (hemb : env.embedBatch (chunkTextS doc.content) = .ok embs) :
    process_document_for_embeddings env st doc =
      ({ st with
         chunks := st.chunks ++ ((chunkTextS doc.content).zip embs).enum.map fun ie =>
           { id := st.nextId + ie.1, document_id := doc.id, chunk_index := ie.1,
             content := ie.2.1, content_length := ie.2.1.length,
             embedding := ie.2.2, msource := doc.source,
             mdocument_type := doc.document_type, mtitle := doc.title },
         docs := st.docs.map fun d =>
           if d.id == doc.id then { doc with is_processed := true } else d,
         nextId := st.nextId + ((chunkTextS doc.content).zip embs).length,
         embedCalls := st.embedCalls + 1 },
       .ok { doc with is_processed := true }) := by
  unfold process_document_for_embeddings
  simp only [hemb]

/-- Equation for `_process_document_for_embeddings` when the batch embedding
call fails. -/
theorem process_eq_err (env : Env) (st : RAGState) (doc : Document)
    (msg : String)
    (hemb : env.embedBatch (chunkTextS doc.content) = .error msg) :
    process_document_for_embeddings env st doc =
      ({ st with
         docs := st.docs.map fun d =>
           if d.id == doc.id then
             { doc with
               is_processed := false,
               processing_error := some "Failed to generate batch embeddings" }
           else d,
         embedCalls := st.embedCalls + 1 },
       .error (.aiErr "Failed to process document for embeddings")) := by
  unfold process_document_for_embeddings
  simp only [hemb]

/-- Equation for `runPipeline` when the batch embedding call succeeds. -/
theorem runPipeline_eq_ok (env : Env) (st : RAGState) (doc : Document)
    (embs : List (List ℚ))
    (hemb : env.embedBatch (chunkTextS doc.content) = .ok embs) :
    runPipeline env st doc =
      ({ st with
         chunks := st.chunks ++ ((chunkTextS doc.content).zip embs).enum.map fun ie =>
           { id := st.nextId + ie.1, document_id := doc.id, chunk_index := ie.1,
             content := ie.2.1, content_length := ie.2.1.length,
             embedding := ie.2.2, msource := doc.source,
             mdocument_type := doc.document_type, mtitle := doc.title },
         docs := st.docs.map fun d =>
           if d.id == doc.id then { doc with is_processed := true } else d,
         nextId := st.nextId + ((chunkTextS doc.content).zip embs).length,
         embedCalls := st.embedCalls + 1 },
       .ok { doc with is_processed := true }) := by
  unfold runPipeline
  rw [process_eq_ok env st doc embs hemb]

/-- Equation for `runPipeline` when the batch embedding call fails: the
document is left marked failed, and the surfaced error is the
`DatabaseError` produced by `ingest_document`'s blanket `except`. -/
theorem runPipeline_eq_err (env : Env) (st : RAGState) (doc : Document)
    (msg : String)
    (hemb : env.embedBatch (chunkTextS doc.content) = .error msg) :
    runPipeline env st doc =
      ({ st with
         docs := st.docs.map fun d =>
           if d.id == doc.id then
             { doc with
               is_processed := false,
               processing_error := some "Failed to generate batch embeddings" }
           else d,
         embedCalls := st.embedCalls + 1 },
       .error (.dbErr "Failed to ingest document")) := by
  unfold runPipeline
  rw [process_eq_err env st doc msg hemb]

/-- Bound transport for an id-targeted update. -/
theorem bound_map_upd (l : List Document) (i : Nat) (x : Document) (n m : Nat)
    (hb : ∀ d ∈ l, d.id < n) (hx : x.id < n) (hnm : n ≤ m) :
    ∀ d ∈ (l.map fun d => if d.id == i then x else d), d.id < m := by
  intro d hd
  obtain ⟨a, ha, rfl⟩ := List.mem_map.mp hd
  by_cases hai : (a.id == i) = true
  · rw [if_pos hai]
    exact lt_of_lt_of_le hx hnm
  · rw [if_neg hai]
    exact lt_of_lt_of_le (hb a ha) hnm

/-- Post-state of a successful `runPipeline`: the unique key row becomes the
processed document; ids, bounds, and the cache survive. -/
theorem runPipeline_ok_post {env : Env} {st1 : RAGState} {d1 : Document}
    {st' : RAGState} {d' : Document} {uid src sid : String}
    (hnd1 : (st1.docs.map Document.id).Nodup)
    (hb1 : ∀ d ∈ st1.docs, d.id < st1.nextId)
    (hkey1 : st1.docs.filter (keyMatch uid src sid) = [d1])
    (h : runPipeline env st1 d1 = (st', .ok d')) :
    st'.docs.filter (keyMatch uid src sid) = [d'] ∧
    d' = { d1 with is_processed := true } ∧
    (st'.docs.map Document.id).Nodup ∧ (∀ d ∈ st'.docs, d.id < st'.nextId) ∧
    st'.cache = st1.cache ∧ st1.nextId ≤ st'.nextId ∧
    st'.embedCalls = st1.embedCalls + 1 := by
  cases hemb : env.embedBatch (chunkTextS d1.content) with
  | error msg =>
    rw [runPipeline_eq_err env st1 d1 msg hemb] at h
    simp at h
  | ok embs =>
    rw [runPipeline_eq_ok env st1 d1 embs hemb] at h
    injection h with h1 h2
    injection h2 with h2
    subst h1
    subst h2
    refine ⟨filter_upd_singleton st1.docs _ d1 _ hnd1 hkey1 rfl, rfl, ?_, ?_,
      rfl, Nat.le_add_right _ _, rfl⟩
    · rw [map_upd_map_id st1.docs d1.id { d1 with is_processed := true } rfl]
      exact hnd1
    · exact bound_map_upd st1.docs d1.id { d1 with is_processed := true }
        st1.nextId _
        hb1 (hb1 d1 (filter_singleton_mem hkey1).1) (Nat.le_add_right _ _)

/-- Whatever `runPipeline` returns, the unique key row keeps its id and
creation time (it is either marked processed or marked failed). -/
theorem runPipeline_key_row {env : Env} {st1 : RAGState} {d1 : Document}
    {uid src sid : String}
    (hnd1 : (st1.docs.map Document.id).Nodup)
    (hkey1 : st1.docs.filter (keyMatch uid src sid) = [d1]) :
    ∃ dk, (runPipeline env st1 d1).1.docs.filter (keyMatch uid src sid) = [dk] ∧
      dk.id = d1.id ∧ dk.created_at = d1.created_at := by
  cases hemb : env.embedBatch (chunkTextS d1.content) with
  | error msg =>
    rw [runPipeline_eq_err env st1 d1 msg hemb]
    exact ⟨_, filter_upd_singleton st1.docs _ d1 _ hnd1 hkey1 rfl, rfl, rfl⟩
  | ok embs =>
    rw [runPipeline_eq_ok env st1 d1 embs hemb]
    exact ⟨_, filter_upd_singleton st1.docs _ d1 _ hnd1 hkey1 rfl, rfl, rfl⟩

/-- Equation for the update branch when some field changed: fields are
overwritten, `is_processed` is reset, the document's chunks are deleted, and
the pipeline runs. -/
theorem ingestExisting_eq_changed (env : Env) (st0 : RAGState) (now : Nat)
    (title content : String) (md : Option (List (String × String)))
    (d0 : Document)
    (hC : (d0.title != title || d0.content != content ||
      d0.metadata != md.getD []) = true) :
    ingestExisting env st0 now title content md d0 =
      runPipeline env
        { st0 with
          docs := st0.docs.map fun d =>
            if d.id == d0.id then
              { d0 with
                title := title, content := content, metadata := md.getD [],
                updated_at := now, is_processed := false }
            else d,
          chunks := st0.chunks.filter fun c => c.document_id != d0.id }
        { d0 with
          title := title, content := content, metadata := md.getD [],
          updated_at := now, is_processed := false } := by
  unfold ingestExisting
  simp [hC]

/-- Equation for the update branch when nothing changed but the document was
still unprocessed (for instance after an earlier embedding failure): chunks
are untouched and the pipeline runs again. -/
theorem ingestExisting_eq_unproc (env : Env) (st0 : RAGState) (now : Nat)
    (title content : String) (md : Option (List (String × String)))
    (d0 : Document)
    (hN : (d0.title != title || d0.content != content ||
      d0.metadata != md.getD []) = false)
    (hip : d0.is_processed = false) :
    ingestExisting env st0 now title content md d0 =
      runPipeline env
        { st0 with
          docs := st0.docs.map fun d =>
            if d.id == d0.id then
              { d0 with
                title := title, content := content, metadata := md.getD [],
                updated_at := now, is_processed := false }
            else d }
        { d0 with
          title := title, content := content, metadata := md.getD [],
          updated_at := now, is_processed := false } := by
  unfold ingestExisting
  simp [hN, hip]

/-- Equation for the update branch when nothing changed and the document was
already processed: only fields and `updated_at` are rewritten; `is_processed`
is kept and no pipeline runs. -/
theorem ingestExisting_eq_clean (env : Env) (st0 : RAGState) (now : Nat)
    (title content : String) (md : Option (List (String × String)))
    (d0 : Document)
    (hN : (d0.title != title || d0.content != content ||
      d0.metadata != md.getD []) = false)
    (hip : d0.is_processed = true) :
    ingestExisting env st0 now title content md d0 =
      ({ st0 with
         docs := st0.docs.map fun d =>
           if d.id == d0.id then
             { d0 with
               title := title, content := content, metadata := md.getD [],
               updated_at := now, is_processed := true }
           else d },
       .ok { d0 with
             title := title, content := content, metadata := md.getD [],
             updated_at := now, is_processed := true }) := by
  unfold ingestExisting
  simp [hN, hip]

/-- The three facts about the field-overwrite update of the unique key row
that every `ingest_document` branch needs: ids stay unique, ids stay bounded,
and the updated row is the unique key row. -/
theorem upd_step_facts (l : List Document) (uid src sid : String) (n : Nat)
    (d0 : Document) (title content : String)
    (md : Option (List (String × String))) (now : Nat) (b : Bool)
    (hnd : (l.map Document.id).Nodup) (hb : ∀ d ∈ l, d.id < n)
    (hkey : l.filter (keyMatch uid src sid) = [d0]) :
    (((l.map fun d => if d.id == d0.id then
        { d0 with
          title := title, content := content, metadata := md.getD [],
          updated_at := now, is_processed := b } else d)).map Document.id).Nodup ∧
    (∀ d ∈ (l.map fun d => if d.id == d0.id then
        { d0 with
          title := title, content := content, metadata := md.getD [],
          updated_at := now, is_processed := b } else d), d.id < n) ∧
    ((l.map fun d => if d.id == d0.id then
        { d0 with
          title := title, content := content, metadata := md.getD [],
          updated_at := now, is_processed := b } else d).filter
        (keyMatch uid src sid)) =
      [{ d0 with
         title := title, content := content, metadata := md.getD [],
         updated_at := now, is_processed := b }] := by
  set x : Document := { d0 with
    title := title, content := content, metadata := md.getD [],
    updated_at := now, is_processed := b } with hx
  refine ⟨?_, ?_, filter_upd_singleton l _ d0 x hnd hkey (by rw [hx]; rfl)⟩
  · rw [map_upd_map_id l d0.id x (by rw [hx])]
    exact hnd
  · refine bound_map_upd l d0.id x n n hb ?_ le_rfl
    rw [hx]
    exact hb d0 (filter_singleton_mem hkey).1

/-- Post-state of a successful update-branch ingestion: the natural key maps
to exactly the returned document, which is processed and carries the given
fields; id-uniqueness, id bounds and the cache survive. -/
theorem ingestExisting_ok_post {env : Env} {st0 : RAGState} {now : Nat}
    {uid src sid title content : String} {md : Option (List (String × String))}
    {d0 : Document} {st' : RAGState} {d' : Document}
    (hnd : (st0.docs.map Document.id).Nodup)
    (hb : ∀ d ∈ st0.docs, d.id < st0.nextId)
    (hkey : st0.docs.filter (keyMatch uid src sid) = [d0])
    (h : ingestExisting env st0 now title content md d0 = (st', .ok d')) :
    st'.docs.filter (keyMatch uid src sid) = [d'] ∧
    d'.is_processed = true ∧ d'.title = title ∧ d'.content = content ∧
    d'.metadata = md.getD [] ∧
    (st'.docs.map Document.id).Nodup ∧ (∀ d ∈ st'.docs, d.id < st'.nextId) ∧
    st'.cache = st0.cache ∧ st0.nextId ≤ st'.nextId := by
  by_cases hch : (d0.title != title || d0.content != content ||
      d0.metadata != md.getD []) = true
  · rw [ingestExisting_eq_changed env st0 now title content md d0 hch] at h
    obtain ⟨hnd1, hb1, hkey1⟩ := upd_step_facts st0.docs uid src sid st0.nextId
      d0 title content md now false hnd hb hkey
    obtain ⟨hf, hdeq, hnd', hb', hcache, hle, -⟩ :=
      runPipeline_ok_post hnd1 hb1 hkey1 h
    subst hdeq
    exact ⟨hf, rfl, rfl, rfl, rfl, hnd', hb', hcache, hle⟩
  · rw [Bool.not_eq_true] at hch
    by_cases hip : d0.is_processed = true
    · rw [ingestExisting_eq_clean env st0 now title content md d0 hch hip] at h
      obtain ⟨hnd1, hb1, hkey1⟩ := upd_step_facts st0.docs uid src sid st0.nextId
        d0 title content md now true hnd hb hkey
      injection h with h1 h2
      injection h2 with h2
      subst h1
      subst h2
      exact ⟨hkey1, rfl, rfl, rfl, rfl, hnd1, hb1, rfl, le_rfl⟩
    · rw [Bool.not_eq_true] at hip
      rw [ingestExisting_eq_unproc env st0 now title content md d0 hch hip] at h
      obtain ⟨hnd1, hb1, hkey1⟩ := upd_step_facts st0.docs uid src sid st0.nextId
        d0 title content md now false hnd hb hkey
      obtain ⟨hf, hdeq, hnd', hb', hcache, hle, -⟩ :=
        runPipeline_ok_post hnd1 hb1 hkey1 h
      subst hdeq
      exact ⟨hf, rfl, rfl, rfl, rfl, hnd', hb', hcache, hle⟩

/-- Equation for the create branch of `ingest_document`. -/
theorem ingestNew_eq (env : Env) (st : RAGState) (now : Nat)
    (uid src sid dtype title content : String)
    (md : Option (List (String × String))) :
    ingestNew env st now uid src sid dtype title content md =
      runPipeline env
        { st with
          docs := st.docs ++
            [{ id := st.nextId, user_id := uid, source := src, source_id := sid,
               document_type := dtype, title := title, content := content,
               metadata := md.getD [], is_processed := false,
               processing_error := none, created_at := now, updated_at := now }],
          nextId := st.nextId + 1 }
        { id := st.nextId, user_id := uid, source := src, source_id := sid,
          document_type := dtype, title := title, content := content,
          metadata := md.getD [], is_processed := false,
          processing_error := none, created_at := now, updated_at := now } := rfl

/-- The three facts about appending a fresh row with a fresh id. -/
theorem new_step_facts (l : List Document) (uid src sid : String) (n : Nat)
    (dN : Document)
    (hnd : (l.map Document.id).Nodup) (hb : ∀ d ∈ l, d.id < n)
    (hkey0 : l.filter (keyMatch uid src sid) = [])
    (hN : dN.id = n) (hkN : keyMatch uid src sid dN = true) :
    ((l ++ [dN]).map Document.id).Nodup ∧
    (∀ d ∈ l ++ [dN], d.id < n + 1) ∧
    ((l ++ [dN]).filter (keyMatch uid src sid)) = [dN] := by
  refine ⟨?_, ?_, ?_⟩
  · rw [List.map_append]
    refine List.Nodup.append hnd (List.nodup_singleton _) ?_
    intro a ha hmem
    simp only [List.map_cons, List.map_nil, List.mem_singleton] at hmem
    obtain ⟨d, hd, rfl⟩ := List.mem_map.mp ha
    have := hb d hd
    omega
  · intro d hd
    rcases List.mem_append.mp hd with hmem | hmem
    · exact Nat.lt_succ_of_lt (hb d hmem)
    · rw [List.mem_singleton] at hmem
      subst hmem
      omega
  · rw [List.filter_append, hkey0, List.nil_append, List.filter_cons,
      if_pos hkN, List.filter_nil]

/-- `ingest_document` reduces to the create branch when no row matches. -/
theorem ingest_eq_new {env : Env} {st : RAGState} {now : Nat}
    {uid src sid dtype title content : String}
    {md : Option (List (String × String))}
    (h : st.docs.filter (keyMatch uid src sid) = []) :
    ingest_document env st now uid src sid dtype title content md =
      ingestNew env st now uid src sid dtype title content md := by
  unfold ingest_document
  rw [h]

/-- `ingest_document` reduces to the update branch, with no cleanup, when
exactly one row matches. -/
theorem ingest_eq_one {env : Env} {st : RAGState} {now : Nat}
    {uid src sid dtype title content : String}
    {md : Option (List (String × String))} {d0 : Document}
    (h : st.docs.filter (keyMatch uid src sid) = [d0]) :
    ingest_document env st now uid src sid dtype title content md =
      ingestExisting env st now title content md d0 := by
  unfold ingest_document
  rw [h]
  rfl

/-- `ingest_document` deduplicates first, then updates, when two or more
rows match. -/
theorem ingest_eq_many {env : Env} {st : RAGState} {now : Nat}
    {uid src sid dtype title content : String}
    {md : Option (List (String × String))} {d0 r : Document}
    {rs : List Document}
    (h : st.docs.filter (keyMatch uid src sid) = d0 :: r :: rs) :
    ingest_document env st now uid src sid dtype title content md =
      ingestExisting env
        { st with docs := st.docs.filter fun d =>
            !(keyMatch uid src sid d) || d.id == d0.id }
        now title content md d0 := by
  unfold ingest_document
  rw [h]
  rfl

/-- Post-state of every successful `ingest_document` call, across all three
branches: exactly one row carries the natural key — the returned document —
and it is processed with the given field values; well-formedness, the cache,
and id-counter monotonicity are preserved. -/
theorem ingest_ok_post {env : Env} {st : RAGState} {now : Nat}
    {uid src sid dtype title content : String}
    {md : Option (List (String × String))} {st' : RAGState} {d' : Document}
    (hwf : WFState st)
    (h : ingest_document env st now uid src sid dtype title content md =
      (st', .ok d')) :
    st'.docs.filter (keyMatch uid src sid) = [d'] ∧
    d'.is_processed = true ∧ d'.title = title ∧ d'.content = content ∧
    d'.metadata = md.getD [] ∧ WFState st' ∧ st'.cache = st.cache ∧
    st.nextId ≤ st'.nextId := by
  rcases hfl : st.docs.filter (keyMatch uid src sid) with - | ⟨d0, - | ⟨r, rs⟩⟩
  · rw [ingest_eq_new hfl, ingestNew_eq] at h
    obtain ⟨hnd1, hb1, hkey1⟩ := new_step_facts st.docs uid src sid st.nextId
      { id := st.nextId, user_id := uid, source := src, source_id := sid,
        document_type := dtype, title := title, content := content,
        metadata := md.getD [], is_processed := false,
        processing_error := none, created_at := now, updated_at := now }
      hwf.docsNodup hwf.docsBound hfl rfl (by simp [keyMatch])
    obtain ⟨hf, hdeq, hnd', hb', hcache, hle, -⟩ :=
      runPipeline_ok_post hnd1 hb1 hkey1 h
    subst hdeq
    have hle' : st.nextId ≤ st'.nextId := le_trans (Nat.le_succ _) hle
    refine ⟨hf, rfl, rfl, rfl, rfl, ⟨hb', hnd', ?_, ?_⟩, hcache, hle'⟩
    · intro c hc
      rw [hcache] at hc
      exact lt_of_lt_of_le (hwf.cacheBound c hc) hle'
    · rw [hcache]
      exact hwf.cacheNodup
  · rw [ingest_eq_one hfl] at h
    obtain ⟨hf, hip, ht, hc, hm, hnd', hb', hcache, hle⟩ :=
      ingestExisting_ok_post hwf.docsNodup hwf.docsBound hfl h
    refine ⟨hf, hip, ht, hc, hm, ⟨hb', hnd', ?_, ?_⟩, hcache, hle⟩
    · intro c hcm
      rw [hcache] at hcm
      exact lt_of_lt_of_le (hwf.cacheBound c hcm) hle
    · rw [hcache]
      exact hwf.cacheNodup
  · rw [ingest_eq_many hfl] at h
    have hsub : (st.docs.filter fun d =>
        !(keyMatch uid src sid d) || d.id == d0.id).Sublist st.docs :=
      List.filter_sublist _
    have hnd0 : ((st.docs.filter fun d =>
        !(keyMatch uid src sid d) || d.id == d0.id).map Document.id).Nodup :=
      (hsub.map Document.id).nodup hwf.docsNodup
    have hb0 : ∀ d ∈ (st.docs.filter fun d =>
        !(keyMatch uid src sid d) || d.id == d0.id), d.id < st.nextId :=
      fun d hd => hwf.docsBound d (hsub.subset hd)
    have hkey0 := filter_key_dedup hwf.docsNodup hfl
    obtain ⟨hf, hip, ht, hc, hm, hnd', hb', hcache, hle⟩ :=
      ingestExisting_ok_post hnd0 hb0 hkey0 h
    refine ⟨hf, hip, ht, hc, hm, ⟨hb', hnd', ?_, ?_⟩, hcache, hle⟩
    · intro c hcm
      rw [hcache] at hcm
      exact lt_of_lt_of_le (hwf.cacheBound c hcm) hle
    · rw [hcache]
      exact hwf.cacheNodup

/-! ### Claim C1 — idempotent ingestion -/

/-- Claim C1: after a successful `ingest_document`, calling it again with
the identical `(user_id, source, source_id, document_type, title, content,
metadata)` leaves exactly one Document row for that key, succeeds, does not
reset `is_processed` (it stays true), and triggers zero embedding-provider
calls — the field-by-field comparison of `(title, content, metadata)`
against the stored values finds nothing changed. -/
theorem ingest_idempotent {env : Env} {st0 : RAGState} {n1 n2 : Nat}
    {uid src sid dtype title content : String}
    {md : Option (List (String × String))} {st1 st2 : RAGState}
    {d1 : Document} {r2 : Except PyErr Document}
    (hwf : WFState st0)
    (h1 : ingest_document env st0 n1 uid src sid dtype title content md =
      (st1, .ok d1))
    (h2 : ingest_document env st1 n2 uid src sid dtype title content md =
      (st2, r2)) :
    (st2.docs.filter (keyMatch uid src sid)).length = 1 ∧
    (∃ d, r2 = .ok d ∧ d.is_processed = true) ∧
    st2.embedCalls = st1.embedCalls := by
  obtain ⟨hf1, hip1, ht1, hc1, hm1, hwf1, -, -⟩ := ingest_ok_post hwf h1
  rw [ingest_eq_one hf1] at h2
  have hN : (d1.title != title || d1.content != content ||
      d1.metadata != md.getD []) = false := by
    simp [ht1, hc1, hm1]
  rw [ingestExisting_eq_clean env st1 n2 title content md d1 hN hip1] at h2
  injection h2 with h2s h2r
  subst h2s
  subst h2r
  obtain ⟨-, -, hkey1⟩ := upd_step_facts st1.docs uid src sid st1.nextId
    d1 title content md n2 true hwf1.docsNodup hwf1.docsBound hf1
  refine ⟨?_, ⟨_, rfl, rfl⟩, rfl⟩
  dsimp only
  rw [hkey1]
  rfl

/-- Witness for `ingest_idempotent`: under `envW`, re-ingesting `docW`'s
exact payload into `stW` (whose single document is already processed) keeps
one key row, succeeds with a processed document, and makes no embedding
calls. -/
theorem ingest_idempotent_witness :
    ((ingest_document envW stW 1 "u" "gmail" "m1" "email" "t" "hello"
        none).1.docs.filter (keyMatch "u" "gmail" "m1")).length = 1 ∧
    (∃ d, (ingest_document envW stW 1 "u" "gmail" "m1" "email" "t" "hello"
        none).2 = .ok d ∧ d.is_processed = true) ∧
    (ingest_document envW stW 1 "u" "gmail" "m1" "email" "t" "hello"
        none).1.embedCalls = stW.embedCalls :=
  ingest_idempotent
    ⟨by decide, by decide, by decide, by decide⟩
    (rfl :
      ingest_document envW stW 0 "u" "gmail" "m1" "email" "t" "hello" none =
        (stW, .ok docW))
    rfl

/-! ### Claim C9 — what an embedding failure leaves behind -/

/-- Claim C9, counterexample: ingesting a fresh document under a failing
embedding provider surfaces `DatabaseError("Failed to ingest document")` to
the caller of `ingest_document`, not an `AIError`: the `AIError` raised by
`_process_document_for_embeddings` is caught by `ingest_document`'s blanket
`except Exception` and converted.  The document itself is still stored,
unprocessed, with `processing_error` set. -/
theorem ingest_error_class_counterexample :
    (ingest_document envFail stEmpty 0 "u" "gmail" "m1" "email" "t" "hello"
        none).2 = .error (.dbErr "Failed to ingest document") ∧
    (∀ m, (ingest_document envFail stEmpty 0 "u" "gmail" "m1" "email" "t"
        "hello" none).2 ≠ .error (.aiErr m)) ∧
    ∃ d, (ingest_document envFail stEmpty 0 "u" "gmail" "m1" "email" "t"
        "hello" none).1.docs = [d] ∧ d.is_processed = false ∧
      d.processing_error = some "Failed to generate batch embeddings" := by
  refine ⟨rfl, ?_, ?_⟩
  · intro m hm
    have h2 : (Except.error (PyErr.dbErr "Failed to ingest document") :
        Except PyErr Document) = .error (.aiErr m) := hm
    simp at h2
  · exact ⟨_, rfl, rfl, rfl⟩

/-- Post-state of `runPipeline` when the batch embedding call fails: the
surfaced error is the `DatabaseError` of `ingest_document`\'s blanket
`except`, and the unique key row is left unprocessed with
`processing_error` set. -/
theorem runPipeline_err_post (env : Env) (st1 : RAGState) (d1 : Document)
    {uid src sid : String} (msg : String)
    (hnd1 : (st1.docs.map Document.id).Nodup)
    (hkey1 : st1.docs.filter (keyMatch uid src sid) = [d1])
    (hemb : env.embedBatch (chunkTextS d1.content) = .error msg) :
    (runPipeline env st1 d1).2 = .error (.dbErr "Failed to ingest document") ∧
    ∃ d, (runPipeline env st1 d1).1.docs.filter (keyMatch uid src sid) = [d] ∧
      d.is_processed = false ∧
      d.processing_error = some "Failed to generate batch embeddings" := by
  rw [runPipeline_eq_err env st1 d1 msg hemb]
  exact ⟨rfl, _, filter_upd_singleton st1.docs _ d1 _ hnd1 hkey1 rfl, rfl, rfl⟩

/-- The update branch under a failing embedding provider: either the
pipeline ran — the call surfaces the `DatabaseError` and the key row is
marked failed — or the row was unchanged and already processed, so no
embedding-provider call was made at all and the call succeeds. -/
theorem ingestExisting_embed_fail (env : Env) (st0 : RAGState) (now : Nat)
    (uid src sid title content : String)
    (md : Option (List (String × String))) (d0 : Document) (msg : String)
    (hnd : (st0.docs.map Document.id).Nodup)
    (hb : ∀ d ∈ st0.docs, d.id < st0.nextId)
    (hkey : st0.docs.filter (keyMatch uid src sid) = [d0])
    (hfail : env.embedBatch (chunkTextS content) = .error msg) :
    ((ingestExisting env st0 now title content md d0).2 =
        .error (.dbErr "Failed to ingest document") ∧
      ∃ d, (ingestExisting env st0 now title content md d0).1.docs.filter
          (keyMatch uid src sid) = [d] ∧
        d.is_processed = false ∧
        d.processing_error = some "Failed to generate batch embeddings") ∨
    (st0.embedCalls =
        (ingestExisting env st0 now title content md d0).1.embedCalls ∧
      ∃ d, (ingestExisting env st0 now title content md d0).2 = .ok d) := by
  by_cases hch : (d0.title != title || d0.content != content ||
      d0.metadata != md.getD []) = true
  · left
    rw [ingestExisting_eq_changed env st0 now title content md d0 hch]
    obtain ⟨hnd1, -, hkey1⟩ := upd_step_facts st0.docs uid src sid st0.nextId
      d0 title content md now false hnd hb hkey
    exact runPipeline_err_post env _ _ msg hnd1 hkey1 hfail
  · rw [Bool.not_eq_true] at hch
    by_cases hip : d0.is_processed = true
    · right
      rw [ingestExisting_eq_clean env st0 now title content md d0 hch hip]
      exact ⟨rfl, _, rfl⟩
    · rw [Bool.not_eq_true] at hip
      left
      rw [ingestExisting_eq_unproc env st0 now title content md d0 hch hip]
      obtain ⟨hnd1, -, hkey1⟩ := upd_step_facts st0.docs uid src sid st0.nextId
        d0 title content md now false hnd hb hkey
      exact runPipeline_err_post env _ _ msg hnd1 hkey1 hfail

/-- Claim C9, amended: for every ingestion — fresh insert, changed-content
update, or retry of a still-unprocessed document — if the embedding-provider
call fails, the Document remains stored as the unique row for its key with
`is_processed = false` and `processing_error` set to the failure detail, and
the error re-raised to the immediate caller of `ingest_document` is a
`DatabaseError`, not an `AIError` (the `AIError` exists only between
`_process_document_for_embeddings` and `ingest_document`\'s own blanket
handler).  In the only branch that does not run the pipeline — unchanged
content on an already-processed document — no embedding-provider call is
made at all and the ingestion succeeds. -/
theorem ingest_embed_failure_marks_error {env : Env} {st : RAGState}
    {now : Nat} {uid src sid dtype title content : String}
    {md : Option (List (String × String))} {msg : String}
    (hwf : WFState st)
    (hfail : env.embedBatch (chunkTextS content) = .error msg) :
    ((ingest_document env st now uid src sid dtype title content md).2 =
        .error (.dbErr "Failed to ingest document") ∧
      ∃ d, (ingest_document env st now uid src sid dtype title content
          md).1.docs.filter (keyMatch uid src sid) = [d] ∧
        d.is_processed = false ∧
        d.processing_error = some "Failed to generate batch embeddings") ∨
    (st.embedCalls = (ingest_document env st now uid src sid dtype title
        content md).1.embedCalls ∧
      ∃ d, (ingest_document env st now uid src sid dtype title content
        md).2 = .ok d) := by
  rcases hfl : st.docs.filter (keyMatch uid src sid) with - | ⟨d0, - | ⟨r, rs⟩⟩
  · left
    rw [ingest_eq_new hfl, ingestNew_eq]
    obtain ⟨hnd1, -, hkey1⟩ := new_step_facts st.docs uid src sid st.nextId
      { id := st.nextId, user_id := uid, source := src, source_id := sid,
        document_type := dtype, title := title, content := content,
        metadata := md.getD [], is_processed := false,
        processing_error := none, created_at := now, updated_at := now }
      hwf.docsNodup hwf.docsBound hfl rfl (by simp [keyMatch])
    exact runPipeline_err_post env _ _ msg hnd1 hkey1 hfail
  · rw [ingest_eq_one hfl]
    exact ingestExisting_embed_fail env st now uid src sid title content md
      d0 msg hwf.docsNodup hwf.docsBound hfl hfail
  · rw [ingest_eq_many hfl]
    have hsub : (st.docs.filter fun d =>
        !(keyMatch uid src sid d) || d.id == d0.id).Sublist st.docs :=
      List.filter_sublist _
    exact ingestExisting_embed_fail env
      { st with docs := st.docs.filter fun d =>
          !(keyMatch uid src sid d) || d.id == d0.id }
      now uid src sid title content md d0 msg
      ((hsub.map Document.id).nodup hwf.docsNodup)
      (fun d hd => hwf.docsBound d (hsub.subset hd))
      (filter_key_dedup hwf.docsNodup hfl) hfail

/-- Witness for `ingest_embed_failure_marks_error` at the concrete failing
environment `envFail` and the empty store (the counterexample above shows
the left disjunct is the one realized there). -/
theorem ingest_embed_failure_marks_error_witness :
    ((ingest_document envFail stEmpty 0 "u" "gmail" "m1" "email" "t" "hello"
        none).2 = .error (.dbErr "Failed to ingest document") ∧
      ∃ d, (ingest_document envFail stEmpty 0 "u" "gmail" "m1" "email" "t"
          "hello" none).1.docs.filter (keyMatch "u" "gmail" "m1") = [d] ∧
        d.is_processed = false ∧
        d.processing_error = some "Failed to generate batch embeddings") ∨
    (stEmpty.embedCalls = (ingest_document envFail stEmpty 0 "u" "gmail"
        "m1" "email" "t" "hello" none).1.embedCalls ∧
      ∃ d, (ingest_document envFail stEmpty 0 "u" "gmail" "m1" "email" "t"
        "hello" none).2 = .ok d) :=
  ingest_embed_failure_marks_error
    ⟨by decide, by decide, by decide, by decide⟩ rfl

/-- Whatever the update branch returns, the unique key row keeps the id and
creation time of the row the branch was given. -/
theorem ingestExisting_key_row (env : Env) (st0 : RAGState) (now : Nat)
    (uid src sid title content : String) (md : Option (List (String × String)))
    (d0 : Document)
    (hnd : (st0.docs.map Document.id).Nodup)
    (hb : ∀ d ∈ st0.docs, d.id < st0.nextId)
    (hkey : st0.docs.filter (keyMatch uid src sid) = [d0]) :
    ∃ dk, (ingestExisting env st0 now title content md d0).1.docs.filter
        (keyMatch uid src sid) = [dk] ∧
      dk.id = d0.id ∧ dk.created_at = d0.created_at := by
  by_cases hch : (d0.title != title || d0.content != content ||
      d0.metadata != md.getD []) = true
  · rw [ingestExisting_eq_changed env st0 now title content md d0 hch]
    obtain ⟨hnd1, -, hkey1⟩ := upd_step_facts st0.docs uid src sid st0.nextId
      d0 title content md now false hnd hb hkey
    exact runPipeline_key_row hnd1 hkey1
  · rw [Bool.not_eq_true] at hch
    by_cases hip : d0.is_processed = true
    · rw [ingestExisting_eq_clean env st0 now title content md d0 hch hip]
      obtain ⟨-, -, hkey1⟩ := upd_step_facts st0.docs uid src sid st0.nextId
        d0 title content md now true hnd hb hkey
      exact ⟨_, hkey1, rfl, rfl⟩
    · rw [Bool.not_eq_true] at hip
      rw [ingestExisting_eq_unproc env st0 now title content md d0 hch hip]
      obtain ⟨hnd1, -, hkey1⟩ := upd_step_facts st0.docs uid src sid st0.nextId
        d0 title content md now false hnd hb hkey
      exact runPipeline_key_row hnd1 hkey1

/-! ### Claim C3 — duplicate self-heal keeps the earliest-created row -/

/-- Claim C3: when more than one Document row exists for the same
`(user_id, source, source_id)` — a simulated duplicate-insert race — the next
`ingest_document` call for that key leaves exactly one row, and the row it
keeps is the first one the lookup returned, which under creation-ordered
storage (`Pairwise` on `created_at`) is the earliest-created of the
duplicates. -/
theorem ingest_duplicate_selfheal {env : Env} {st : RAGState} {now : Nat}
    {uid src sid dtype title content : String}
    {md : Option (List (String × String))} {d0 r : Document}
    {rs : List Document}
    (hwf : WFState st)
    (hsorted : st.docs.Pairwise fun a b => a.created_at ≤ b.created_at)
    (hdup : st.docs.filter (keyMatch uid src sid) = d0 :: r :: rs) :
    ∃ dk, (ingest_document env st now uid src sid dtype title content
        md).1.docs.filter (keyMatch uid src sid) = [dk] ∧
      dk.id = d0.id ∧ dk.created_at = d0.created_at ∧
      ∀ d ∈ st.docs.filter (keyMatch uid src sid),
        dk.created_at ≤ d.created_at := by
  have hpair : ∀ d ∈ st.docs.filter (keyMatch uid src sid),
      d0.created_at ≤ d.created_at := by
    have hp : (st.docs.filter (keyMatch uid src sid)).Pairwise
        (fun a b => a.created_at ≤ b.created_at) :=
      List.Pairwise.sublist (List.filter_sublist st.docs) hsorted
    rw [hdup] at hp
    obtain ⟨hd0all, -⟩ := List.pairwise_cons.mp hp
    intro d hd
    rw [hdup] at hd
    rcases List.mem_cons.mp hd with rfl | hmem
    · exact le_rfl
    · exact hd0all d hmem
  rw [ingest_eq_many hdup]
  have hsub : (st.docs.filter fun d =>
      !(keyMatch uid src sid d) || d.id == d0.id).Sublist st.docs :=
    List.filter_sublist _
  obtain ⟨dk, hdk, hid, hcr⟩ := ingestExisting_key_row env
    { st with docs := st.docs.filter fun d =>
        !(keyMatch uid src sid d) || d.id == d0.id }
    now uid src sid title content md d0
    ((hsub.map Document.id).nodup hwf.docsNodup)
    (fun d hd => hwf.docsBound d (hsub.subset hd))
    (filter_key_dedup hwf.docsNodup hdup)
  refine ⟨dk, hdk, hid, hcr, ?_⟩
  rw [hcr]
  exact hpair

/-- Witness for `ingest_duplicate_selfheal`: `stDup` holds two rows with the
key `("u", "gmail", "m1")`; re-ingesting that key collapses them to one row
with `docW`'s id and creation time, minimal among the duplicates. -/
theorem ingest_duplicate_selfheal_witness :
    ∃ dk, (ingest_document envW stDup 4 "u" "gmail" "m1" "email" "t" "hello"
        none).1.docs.filter (keyMatch "u" "gmail" "m1") = [dk] ∧
      dk.id = docW.id ∧ dk.created_at = docW.created_at ∧
      ∀ d ∈ stDup.docs.filter (keyMatch "u" "gmail" "m1"),
        dk.created_at ≤ d.created_at :=
  ingest_duplicate_selfheal
    ⟨by decide, by decide, by decide, by decide⟩ (by decide) rfl

/-! ### Cache lemmas for claim C7 -/

/-- Equation for `_get_cached_query` on a miss. -/
theorem get_cached_query_eq_none {st : RAGState} {now : Nat} {uid qh : String}
    (h : st.cache.filter (cacheMatch uid qh now) = []) :
    get_cached_query st now uid qh = (st, none) := by
  unfold get_cached_query
  rw [h]

/-- Equation for `_get_cached_query` on a hit: the row's `hit_count` is
incremented and `last_accessed_at` refreshed, committed in place. -/
theorem get_cached_query_eq_hit {st : RAGState} {now : Nat} {uid qh : String}
    {r : QueryCache}
    (h : st.cache.filter (cacheMatch uid qh now) = [r]) :
    get_cached_query st now uid qh =
      ({ st with cache := st.cache.map fun x =>
          if x.id == r.id then
            { r with hit_count := r.hit_count + 1, last_accessed_at := now }
          else x },
       some { r with hit_count := r.hit_count + 1, last_accessed_at := now }) := by
  unfold get_cached_query
  rw [h]

/-- Equation for `retrieve_context_for_query` on a cache miss with a
successful query embedding: one embedding call, a search with `limit * 2`,
greedy assembly, and a cache insert. -/
theorem retrieve_eq_miss {env : Env} {thr : ℚ} {maxLen : Nat}
    {st : RAGState} {now : Nat} {uid query : String} {limit : Nat}
    {src dts : Option (List String)} {qe : List ℚ}
    (hmiss : st.cache.filter (cacheMatch uid (env.hash query) now) = [])
    (hqe : env.embed query = .ok qe) :
    retrieve_context_for_query env thr maxLen st now uid query limit src dts =
      (cache_query_result env { st with embedCalls := st.embedCalls + 1 } now
         uid (env.hash query) query qe
         (assembleContext maxLen
           (search_similar_chunks env thr
             { st with embedCalls := st.embedCalls + 1 } uid qe (limit * 2)
             src dts) 0),
       .ok (assembleContext maxLen
         (search_similar_chunks env thr
           { st with embedCalls := st.embedCalls + 1 } uid qe (limit * 2)
           src dts) 0)) := by
  unfold retrieve_context_for_query get_query_hash
  simp only [get_cached_query_eq_none hmiss, hqe]

/-- Equation for `retrieve_context_for_query` on a cache hit: the stored
chunks are returned, the row is bumped, and no embedding call happens. -/
theorem retrieve_eq_hit {env : Env} {thr : ℚ} {maxLen : Nat}
    {st : RAGState} {now : Nat} {uid query : String} {limit : Nat}
    {src dts : Option (List String)} {r : QueryCache}
    (hhit : st.cache.filter (cacheMatch uid (env.hash query) now) = [r]) :
    retrieve_context_for_query env thr maxLen st now uid query limit src dts =
      ({ st with cache := st.cache.map fun x =>
          if x.id == r.id then
            { r with hit_count := r.hit_count + 1, last_accessed_at := now }
          else x },
       .ok r.retrieved_chunks) := by
  unfold retrieve_context_for_query get_query_hash
  simp only [get_cached_query_eq_hit hhit]

/-- The fresh cache row inserted by `_cache_query_result` is the unique
non-expired row for `(user, hash)` at any later time within the TTL, when no
other row carries that `(user, hash)`. -/
theorem cache_query_result_filter (env : Env) (stb : RAGState)
    (now now2 : Nat) (uid qh q : String) (qe : List ℚ)
    (items : List ContextItem)
    (hmiss : stb.cache.filter (fun c =>
      c.user_id == uid && c.query_hash == qh) = [])
    (hts : now2 < now + cacheTTL) :
    (cache_query_result env stb now uid qh q qe items).cache.filter
      (cacheMatch uid qh now2) =
      [{ id := stb.nextId, user_id := uid, query_hash := qh, query_text := q,
         query_embedding := qe, retrieved_chunks := items,
         context_summary := env.summarize
           (String.intercalate "\n" (items.map ContextItem.content)),
         hit_count := 0, last_accessed_at := now, created_at := now,
         expires_at := some (now + cacheTTL) }] := by
  unfold cache_query_result
  dsimp only
  rw [List.filter_append]
  have h1 : stb.cache.filter (cacheMatch uid qh now2) = [] := by
    rw [List.filter_eq_nil_iff] at hmiss ⊢
    intro c hc hcm
    unfold cacheMatch at hcm
    rw [Bool.and_eq_true] at hcm
    exact absurd hcm.1 (hmiss c hc)
  have hrow : cacheMatch uid qh now2
      { id := stb.nextId, user_id := uid, query_hash := qh, query_text := q,
        query_embedding := qe, retrieved_chunks := items,
        context_summary := env.summarize
          (String.intercalate "\n" (items.map ContextItem.content)),
        hit_count := 0, last_accessed_at := now, created_at := now,
        expires_at := some (now + cacheTTL) } = true := by
    unfold cacheMatch
    simp [hts]
  rw [h1, List.nil_append, List.filter_cons, if_pos hrow, List.filter_nil]

/-- Bumping the unique matching row: the bumped row is a member of the
mapped cache. -/
theorem bump_mem_map (cache : List QueryCache) (r : QueryCache) (now : Nat)
    (hr : r ∈ cache) :
    ({ r with hit_count := r.hit_count + 1, last_accessed_at := now }) ∈
      cache.map fun x =>
        if x.id == r.id then
          { r with hit_count := r.hit_count + 1, last_accessed_at := now }
        else x :=
  List.mem_map.mpr ⟨r, hr, by simp⟩

/-! ### Claim C7 — cache hit counting -/

/-- Claim C7: two consecutive `retrieve_context_for_query` calls with the
same user and query text compute the same query hash; when the store holds
no cache row for that `(user, hash)` and the embedding succeeds, the first
call inserts a row with `hit_count = 0` and the second call — within the
24-hour TTL — is served from the cache: it returns the same items, makes
zero new embedding-provider calls, and leaves the row with `hit_count`
incremented by exactly 1 and `last_accessed_at` refreshed. -/
theorem cache_hit_counting {env : Env} {thr : ℚ} {maxLen : Nat}
    {st0 : RAGState} {n1 n2 : Nat} {uid q : String} {lim : Nat}
    {src dts : Option (List String)} {st1 st2 : RAGState}
    {items : List ContextItem} {r2 : Except PyErr (List ContextItem)}
    {qe : List ℚ}
    (hnone : st0.cache.filter (fun c =>
      c.user_id == uid && c.query_hash == env.hash q) = [])
    (hqe : env.embed q = .ok qe)
    (hts : n2 < n1 + cacheTTL)
    (h1 : retrieve_context_for_query env thr maxLen st0 n1 uid q lim src dts =
      (st1, .ok items))
    (h2 : retrieve_context_for_query env thr maxLen st1 n2 uid q lim src dts =
      (st2, r2)) :
    r2 = .ok items ∧ st2.embedCalls = st1.embedCalls ∧
    ∃ row ∈ st2.cache, row.user_id = uid ∧ row.query_hash = env.hash q ∧
      row.hit_count = 1 ∧ row.last_accessed_at = n2 ∧
      row.retrieved_chunks = items := by
  have hmiss1 : st0.cache.filter (cacheMatch uid (env.hash q) n1) = [] := by
    rw [List.filter_eq_nil_iff] at hnone ⊢
    intro c hc hcm
    unfold cacheMatch at hcm
    rw [Bool.and_eq_true] at hcm
    exact absurd hcm.1 (hnone c hc)
  rw [retrieve_eq_miss hmiss1 hqe] at h1
  injection h1 with h1s h1r
  injection h1r with h1r
  subst h1r
  subst h1s
  set I := assembleContext maxLen (search_similar_chunks env thr
    { st0 with embedCalls := st0.embedCalls + 1 } uid qe (lim * 2) src dts) 0
    with hI
  have hhit2 := cache_query_result_filter env
    { st0 with embedCalls := st0.embedCalls + 1 } n1 n2 uid (env.hash q) q qe
    I hnone hts
  rw [retrieve_eq_hit hhit2] at h2
  injection h2 with h2s h2r
  subst h2s
  subst h2r
  refine ⟨rfl, rfl, ?_⟩
  exact ⟨_, bump_mem_map _ _ _ (filter_singleton_mem hhit2).1,
    rfl, rfl, rfl, rfl, rfl⟩

/-- Witness for `cache_hit_counting`: a first retrieval for `("u", "hi")` on
the empty store caches the empty result list; the second call one tick later
is served from that row. -/
theorem cache_hit_counting_witness :
    (retrieve_context_for_query envW (7/10) 4000 stC7 1 "u" "hi" 5 none
        none).2 = .ok [] ∧
    (retrieve_context_for_query envW (7/10) 4000 stC7 1 "u" "hi" 5 none
        none).1.embedCalls = stC7.embedCalls ∧
    ∃ row ∈ (retrieve_context_for_query envW (7/10) 4000 stC7 1 "u" "hi" 5
        none none).1.cache, row.user_id = "u" ∧
      row.query_hash = envW.hash "hi" ∧ row.hit_count = 1 ∧
      row.last_accessed_at = 1 ∧ row.retrieved_chunks = [] :=
  cache_hit_counting
    (rfl : stEmpty.cache.filter (fun c =>
      c.user_id == "u" && c.query_hash == envW.hash "hi") = [])
    rfl (by decide)
    (rfl :
      retrieve_context_for_query envW (7/10) 4000 stEmpty 0 "u" "hi" 5 none
        none = (stC7, .ok []))
    rfl

/-! ### Claim C4 — threshold filtering in `search_similar_chunks` -/

/-- Claim C4: for every user, query embedding, limit and filter combination,
`search_similar_chunks` never returns a candidate whose similarity score
(`1 -` cosine distance) is strictly below the configured threshold, even when
excluding such candidates leaves fewer than `limit` results. -/
theorem search_similar_chunks_threshold (env : Env) (threshold : ℚ)
    (st : RAGState) (uid : String) (qe : List ℚ) (limit : Nat)
    (sources dts : Option (List String)) :
    ∀ r ∈ search_similar_chunks env threshold st uid qe limit sources dts,
      threshold ≤ r.similarity_score := by
  intro r hr
  unfold search_similar_chunks at hr
  obtain ⟨cd, -, hcd⟩ := List.mem_filterMap.mp hr
  dsimp only at hcd
  split at hcd
  · rename_i hle
    cases hcd
    exact hle
  · cases hcd

/-- Witness for `search_similar_chunks_threshold`: under `envW` and `stW` the
search returns the concrete result `rW`, and the default threshold `7/10`
indeed bounds its similarity score `7/8`. -/
theorem search_similar_chunks_threshold_witness :
    (7 : ℚ)/10 ≤ rW.similarity_score :=
  search_similar_chunks_threshold envW (7/10) stW "u" [1] 10 none none rW
    (by rw [searchW_eval stW rfl rfl]; exact List.mem_singleton_self rW)

/-! ### Claim C5 — the context-length budget of the packing loop -/

theorem assembleContext_le (maxLen : Nat) :
    ∀ (cands : List SearchResult) (total : Nat), total ≤ maxLen →
      total + sumLenC (assembleContext maxLen cands total) ≤ maxLen := by
  intro cands
  induction cands with
  | nil => intro t ht; simpa [assembleContext, sumLenC]
  | cons r rest ih =>
    intro t ht
    rw [assembleContext]
    split
    · simpa [sumLenC]
    · rename_i hfit
      push_neg at hfit
      have h2 := ih (t + r.content.length) hfit
      simp only [sumLenC, List.map_cons, List.sum_cons, mkContextItem] at h2 ⊢
      omega

theorem assembleContext_take (maxLen : Nat) :
    ∀ (cands : List SearchResult) (total : Nat),
      ∃ k, k ≤ cands.length ∧
        assembleContext maxLen cands total = (cands.take k).map mkContextItem ∧
        ∀ c ∈ (cands.drop k).head?,
          maxLen < total + sumLenR (cands.take k) + c.content.length := by
  intro cands
  induction cands with
  | nil =>
    intro t
    exact ⟨0, Nat.le_refl 0, rfl, by simp⟩
  | cons r rest ih =>
    intro t
    rw [assembleContext]
    split
    · rename_i hstop
      refine ⟨0, Nat.zero_le _, rfl, ?_⟩
      intro c hc
      simp only [List.drop_zero, List.head?_cons, Option.mem_def,
        Option.some.injEq] at hc
      subst hc
      simpa [sumLenR] using hstop
    · rename_i hfit
      obtain ⟨k, hk, heq, hrest⟩ := ih (t + r.content.length)
      refine ⟨k + 1, by simpa using Nat.succ_le_succ hk, ?_, ?_⟩
      · simp [List.take_succ_cons, heq]
      · intro c hc
        simp only [List.drop_succ_cons] at hc
        have := hrest c hc
        simp only [List.take_succ_cons, sumLenR, List.map_cons,
          List.sum_cons] at this ⊢
        omega

/-- Claim C5: the context list assembled by `retrieve_context_for_query`'s
packing loop has total content length at most the configured maximum; the
result is the greedy prefix of the ranked candidates — assembly stops at the
first candidate whose content would exceed the budget and never considers
later candidates. -/
theorem retrieve_context_budget (maxLen : Nat) (cands : List SearchResult) :
    sumLenC (assembleContext maxLen cands 0) ≤ maxLen ∧
    ∃ k, k ≤ cands.length ∧
      assembleContext maxLen cands 0 = (cands.take k).map mkContextItem ∧
      ∀ c ∈ (cands.drop k).head?,
        maxLen < sumLenR (cands.take k) + c.content.length := by
  constructor
  · simpa using assembleContext_le maxLen cands 0 (Nat.zero_le _)
  · simpa using assembleContext_take maxLen cands 0

/-! ### Claim C6 — relevance scores are truncated, not rounded -/

/-- Claim C6, counterexample: at distance `1/8` the similarity is `7/8`, so
`similarity_score * 100 = 87.5`; the emitted `relevance_score` is
`int(87.5) = 87`, but `round(87.5) = 88`.  The claim's
`round(similarity_score * 100)` does not describe the code, which computes
`int(similarity_score * 100)` (truncation). -/
theorem relevance_not_rounded_counterexample :
    (retrieve_context_for_query envW (7/10) 4000 stW 0 "u" "hi" 5 none
        none).2 = .ok [mkContextItem rW] ∧
    (mkContextItem rW).relevance_score = 87 ∧
    round (rW.similarity_score * 100) = 88 := by
  refine ⟨?_, ?_, ?_⟩
  · show Except.ok (assembleContext 4000 (search_similar_chunks envW (7/10)
        { stW with embedCalls := 1 } "u" [1] 10 none none) 0) =
      Except.ok [mkContextItem rW]
    rw [searchW_eval _ rfl rfl]
    rfl
  · show pyInt ((1 - (1 : ℚ)/8) * 100) = 87
    rw [pyInt_eq_floor _ (by norm_num)]
    norm_num
  · show round ((1 - (1 : ℚ)/8) * 100) = 88
    rw [round_eq]
    norm_num

/-- Claim C6, amended: every context item emitted by the packing loop of
`retrieve_context_for_query` originates from a ranked candidate and carries
`relevance_score = int(similarity_score * 100)`, the *truncation* (Python
`int()`) of the percentage — which is the floor for these nonnegative
scores — not the nearest integer. -/
theorem assembleContext_relevance (maxLen : Nat) :
    ∀ (cands : List SearchResult) (total : Nat),
      ∀ item ∈ assembleContext maxLen cands total,
        ∃ r ∈ cands, item = mkContextItem r ∧
          item.relevance_score = pyInt (r.similarity_score * 100) := by
  intro cands
  induction cands with
  | nil => intro t item h; simp [assembleContext] at h
  | cons r rest ih =>
    intro t item h
    rw [assembleContext] at h
    split at h
    · simp at h
    · rcases List.mem_cons.mp h with rfl | hmem
      · exact ⟨r, List.mem_cons_self r rest, rfl, rfl⟩
      · obtain ⟨r', hr', heq, hsc⟩ := ih _ item hmem
        exact ⟨r', List.mem_cons_of_mem r hr', heq, hsc⟩

/-- Witness for `assembleContext_relevance` at the concrete candidate list
`[rW]`: the emitted item is `mkContextItem rW` with truncated score `87`. -/
theorem assembleContext_relevance_witness :
    ∃ r ∈ [rW], mkContextItem rW = mkContextItem r ∧
      (mkContextItem rW).relevance_score = pyInt (r.similarity_score * 100) :=
  assembleContext_relevance 4000 [rW] 0 (mkContextItem rW)
    (by rw [show assembleContext 4000 [rW] 0 = [mkContextItem rW] from rfl]
        exact List.mem_singleton_self _)

/-! ### Claim C2 — `clear_user_data` (code bug) -/

/-- Claim C2 (code bug): `clear_user_data` can never return `True` and never
deletes anything — the statement `delete(DocumentChunk).join(Document)`
raises `AttributeError` (SQLAlchemy's `Delete` has no `join` method), the
handler rolls back the staged cache delete and returns `False`.  Evaluated at
a store holding one document, one chunk and one cache row for user `"u1"`:
the call returns `False` and every row survives. -/
theorem clear_user_data_cannot_clear :
    (∀ st uid, clear_user_data st uid = (st, false)) ∧
    clear_user_data stU1 "u1" = (stU1, false) ∧
    (stU1.docs.filter fun d => d.user_id == "u1") ≠ [] ∧
    stU1.chunks ≠ [] ∧
    (stU1.cache.filter fun r => r.user_id == "u1") ≠ [] := by
  exact ⟨fun st uid => rfl, rfl, by decide, by decide, by decide⟩

/-! ### Claim C10 — `delete_document` (code bug) -/

/-- Claim C10 (code bug): `delete_document` cannot delete a document that
still has chunks.  The claim says it returns `True` exactly when an owned
document with that id existed, its chunks going by cascade — but the Core
bulk `DELETE` bypasses the ORM relationship cascade and the
`document_chunks.document_id` foreign key has no `ON DELETE CASCADE`, so the
statement raises a foreign-key violation, the handler rolls back, and
`False` is returned with the store unchanged.  Evaluated at `stW`: `docW`
(id 0) is owned by `"u"` and still referenced by `chunkW`, yet the call
returns `False` and deletes nothing.  On the chunk-free store `stDup` the
same call succeeds, isolating the chunks as the cause. -/
theorem delete_document_fk_violation :
    (delete_document envW stW "u" 0 = (stW, false) ∧
      (∃ d ∈ stW.docs, d.id = 0 ∧ d.user_id = "u") ∧
      ∃ c ∈ stW.chunks, c.document_id = 0) ∧
    (delete_document envW stDup "u" 0).2 = true := by
  refine ⟨⟨rfl, ⟨docW, List.mem_singleton_self docW, rfl, rfl⟩,
    ⟨chunkW, List.mem_singleton_self chunkW, rfl⟩⟩, rfl⟩

end AdvisorAI
